import Mathlib

/-
Verification of the typed potential-expression model described by this
repository's notebooks (gmso_showcase). The repository itself contains only
notebook callers of the external gmso library; the `PotentialExpression`
entity they exercise is therefore modelled here from the specification's
operational description, and the notebooks' scenarios are checked against
that model.
-/

namespace GmsoShowcase

/-- Modelled from the spec: the symbolic-parser collaborator is not part of
this repository. Identifier characters of a formula string: a symbol starts
with a letter or underscore. -/
def isIdentStart (c : Char) : Bool := c.isAlpha || c = '_'

/-- Modelled from the spec: continuation characters of an identifier or
numeric-literal token in a formula string. -/
def isIdentChar (c : Char) : Bool := c.isAlphanum || c = '_'

/-- Modelled from the spec: tokenizer for the symbolic-parser collaborator
(deterministic, side-effect-free). The scanner state `cur` holds the token
being read, flagged `true` when it is a symbol rather than a number. -/
def scanAux : List Char → Option (Bool × List Char) → List String
  | [], some (true, acc) => [String.mk acc.reverse]
  | [], _ => []
  | c :: rest, some (isSym, acc) =>
      if isIdentChar c then scanAux rest (some (isSym, c :: acc))
      else
        (if isSym then [String.mk acc.reverse] else []) ++ scanAux rest none
  | c :: rest, none =>
      if isIdentStart c then scanAux rest (some (true, [c]))
      else if c.isDigit then scanAux rest (some (false, [c]))
      else scanAux rest none

/-- Modelled from the spec: the set of free symbol names referenced by a
formula string, as returned by the symbolic-parser collaborator. -/
def symbolsOf (s : String) : Finset String :=
  (scanAux s.toList none).toFinset

/-- Modelled from the spec: a dimensioned scalar value — an opaque
(magnitude, physical unit) pair; the core performs no unit arithmetic. -/
structure DimValue where
  magnitude : ℚ
  unit : String
deriving DecidableEq

/-- Modelled from the spec: a `ParameterMap` maps symbol names to
dimensioned values. -/
abbrev ParameterMap := List (String × DimValue)

/-- The set of keys of a parameter map. -/
def paramKeys (m : ParameterMap) : Finset String :=
  (m.map Prod.fst).toFinset

/-- Modelled from the spec: the `PotentialExpression` entity of
`gmso.utils.expression` (the class itself is not in this repository, only
its notebook callers). It owns one expression (kept as its immutable string
form), one independent-variable set and one parameter map. -/
structure PotentialExpression where
  expression : String
  independent_variables : Finset String
  parameters : ParameterMap
deriving DecidableEq

deriving instance DecidableEq for Except

/-- Modelled from the spec: the error taxonomy of the core.
`invalidAssignment` carries the offending name(s). -/
inductive GMSOError where
  | invalidAssignment (offending : Finset String)
  | templateNotFound (name : String)
  | parseError (text : String)
deriving DecidableEq

/-- Modelled from the spec: gmso's exception class hierarchy is not in this
repository; the notebooks (the callers in src) catch the invalid-assignment
failure with a ValueError handler and observe it, so `invalidAssignment` is
modelled as catchable as ValueError at the public interface. -/
def catchableAsValueError : GMSOError → Bool
  | .invalidAssignment _ => true
  | .templateNotFound _ => false
  | .parseError _ => false

/-- Modelled from the spec: the shared validator. Every independent-variable
name and every parameter key must appear among the expression's symbols, and
no name may be claimed by both sets; the failure carries the offending
name(s). -/
def verify_validity (syms indep : Finset String) (params : ParameterMap) :
    Option GMSOError :=
  if (indep.filter (fun v => v ∉ syms)).Nonempty then
    some (GMSOError.invalidAssignment (indep.filter (fun v => v ∉ syms)))
  else if ((paramKeys params).filter (fun k => k ∉ syms)).Nonempty then
    some (GMSOError.invalidAssignment ((paramKeys params).filter (fun k => k ∉ syms)))
  else if (indep ∩ paramKeys params).Nonempty then
    some (GMSOError.invalidAssignment (indep ∩ paramKeys params))
  else none

/-- Modelled from the spec: an independent-variable argument is a set of
symbol names or a single name, treated as a singleton set. -/
inductive IVInput where
  | one (name : String)
  | set (names : Finset String)
deriving DecidableEq

/-- Normalization of an independent-variable argument to a set. -/
def IVInput.toFinset : IVInput → Finset String
  | .one n => {n}
  | .set s => s

/-- Modelled from the spec: construction of a `PotentialExpression`; the
validator runs first, and the entity is only built once validation passes. -/
def create (expr : String) (indep : Finset String) (params : ParameterMap) :
    Except GMSOError PotentialExpression :=
  match verify_validity (symbolsOf expr) indep params with
  | some e => .error e
  | none => .ok ⟨expr, indep, params⟩

/-- Modelled from the spec: the independent-variable mutator re-validates the
full invariant against the current expression and current parameter map
before any field is assigned; on success it replaces the
independent-variable set only. -/
def set_independent_variables (p : PotentialExpression) (input : IVInput) :
    Except GMSOError PotentialExpression :=
  match verify_validity (symbolsOf p.expression) input.toFinset p.parameters with
  | some e => .error e
  | none => .ok { p with independent_variables := input.toFinset }

/-- Modelled from the spec: the parameter mutator validates the proposed map
against the current expression and independent-variable set before any field
is assigned; on success it replaces the parameter map wholesale. -/
def set_parameters (p : PotentialExpression) (newMap : ParameterMap) :
    Except GMSOError PotentialExpression :=
  match verify_validity (symbolsOf p.expression) p.independent_variables newMap with
  | some e => .error e
  | none => .ok { p with parameters := newMap }

/-- Modelled from the spec: `is_parametric` is true iff the parameter map is
non-empty. -/
def is_parametric (p : PotentialExpression) : Bool :=
  !p.parameters.isEmpty

/-- Modelled from the spec: derivation of a new, independent entity from a
template — it copies the template's expression and independent-variable set
and runs the same validation as `create` on the supplied parameters. -/
def instantiate_from_template (template : PotentialExpression)
    (params : ParameterMap) : Except GMSOError PotentialExpression :=
  create template.expression template.independent_variables params

/-- The consistency invariant of §3: the expression's symbols cover the
independent variables and the parameter keys, and the two are disjoint. -/
def invariant (p : PotentialExpression) : Prop :=
  p.independent_variables ∪ paramKeys p.parameters ⊆ symbolsOf p.expression ∧
  p.independent_variables ∩ paramKeys p.parameters = ∅

instance (p : PotentialExpression) : Decidable (invariant p) := by
  unfold invariant; infer_instance

/-- A store of entities: each address holds one `PotentialExpression`,
mirroring the object identities of the notebook session (mutating one object
must not change another unless they alias). -/
abbrev Store := List PotentialExpression

/-- Modelled from the spec: the exposed operations on the entities of a
store. `fromTemplate` reads a template at an address and, on success,
allocates the derived instance as a fresh, independent copy. -/
inductive Op where
  | setIV (addr : Nat) (input : IVInput)
  | setParams (addr : Nat) (newMap : ParameterMap)
  | fromTemplate (addr : Nat) (params : ParameterMap)
deriving DecidableEq

/-- The address an operation targets. -/
def Op.addr : Op → Nat
  | .setIV a _ => a
  | .setParams a _ => a
  | .fromTemplate a _ => a

/-- Writing the result of a mutator back to its address: a success replaces
the cell, a failure leaves the store unchanged (atomic rejection). -/
def applyResult (st : Store) (a : Nat)
    (r : Except GMSOError PotentialExpression) : Store :=
  match r with
  | .ok p' => st.set a p'
  | .error _ => st

/-- Running a mutator against the entity stored at an address. -/
def mutateAt (st : Store) (a : Nat)
    (f : PotentialExpression → Except GMSOError PotentialExpression) : Store :=
  match st[a]? with
  | none => st
  | some p => applyResult st a (f p)

/-- Allocating the result of a derivation at a fresh address: a success
appends the derived instance, a failure leaves the store unchanged. -/
def extendResult (st : Store) (r : Except GMSOError PotentialExpression) : Store :=
  match r with
  | .ok p' => st ++ [p']
  | .error _ => st

/-- Modelled from the spec: running one exposed operation against a store.
A failed mutator leaves the store unchanged (atomic rejection); a successful
`fromTemplate` appends the derived instance at a fresh address. -/
def runOp (st : Store) : Op → Store
  | .setIV a input => mutateAt st a (fun p => set_independent_variables p input)
  | .setParams a newMap => mutateAt st a (fun p => set_parameters p newMap)
  | .fromTemplate a params =>
    match st[a]? with
    | none => st
    | some t => extendResult st (instantiate_from_template t params)

/-- Running a sequence of exposed operations. -/
def runOps (st : Store) : List Op → Store
  | [] => st
  | op :: rest => runOps (runOp st op) rest

/-- The dimensioned value 1.0 g of the notebook scenario. -/
def oneGram : DimValue := ⟨1, "g"⟩

/-- The dimensioned value 1.0 m of the notebook scenario. -/
def oneMeter : DimValue := ⟨1, "m"⟩

/-- The heterogeneous parameter map of the notebook scenario for the
expression a*x+b. -/
def pmAB : ParameterMap := [("a", oneGram), ("b", oneMeter)]

/-- The notebook's parametrized entity: expression a*x+b, independent
variable x, parameters a and b. -/
def peAXB : PotentialExpression := ⟨"a*x+b", {"x"}, pmAB⟩

/-- The notebook's unparametrized entity built from a*x+b before binding
parameters. -/
def peAXB0 : PotentialExpression := ⟨"a*x+b", {"x"}, []⟩

/-- The spec scenario's template entity: expression x*b+c, independent
variable c, no parameters. -/
def peXBC : PotentialExpression := ⟨"x*b+c", {"c"}, []⟩

/-- The Lennard-Jones expression string of the spec scenario. -/
def ljExpr : String := "4*epsilon*((sigma/r)**12-(sigma/r)**6)"

/-- The Lennard-Jones template of the spec scenario, with independent
variable r and no parameters. -/
def ljTemplate : PotentialExpression := ⟨ljExpr, {"r"}, []⟩

/-- The parameter map supplied to the Lennard-Jones template in the spec
scenario. -/
def ljParams : ParameterMap := [("sigma", ⟨1, "nm"⟩), ("epsilon", ⟨1, "kJ/mol"⟩)]

/-- The entity derived from the Lennard-Jones template with the scenario's
parameters. -/
def ljDerived : PotentialExpression := ⟨ljExpr, {"r"}, ljParams⟩

theorem verify_validity_eq_none (syms indep : Finset String) (params : ParameterMap) :
    verify_validity syms indep params = none ↔
      indep ⊆ syms ∧ paramKeys params ⊆ syms ∧ indep ∩ paramKeys params = ∅ := by
  unfold verify_validity
  split_ifs with h1 h2 h3
  · simp only [Finset.filter_nonempty_iff] at h1
    obtain ⟨v, hv, hvs⟩ := h1
    simp only [false_iff, reduceCtorEq]
    rintro ⟨hs, -, -⟩
    exact hvs (hs hv)
  · simp only [Finset.filter_nonempty_iff] at h2
    obtain ⟨k, hk, hks⟩ := h2
    simp only [false_iff, reduceCtorEq]
    rintro ⟨-, hs, -⟩
    exact hks (hs hk)
  · obtain ⟨k, hk⟩ := h3
    simp only [false_iff, reduceCtorEq]
    rintro ⟨-, -, hint⟩
    rw [hint] at hk
    exact absurd hk (Finset.not_mem_empty k)
  · simp only [true_iff]
    rw [Finset.not_nonempty_iff_eq_empty, Finset.filter_eq_empty_iff] at h1 h2
    rw [Finset.not_nonempty_iff_eq_empty] at h3
    refine ⟨fun v hv => ?_, fun k hk => ?_, h3⟩
    · have := h1 hv; rwa [not_not] at this
    · have := h2 hk; rwa [not_not] at this

theorem verify_validity_invalid_of_badVar (syms indep : Finset String)
    (params : ParameterMap) (h : (indep.filter (fun v => v ∉ syms)).Nonempty) :
    verify_validity syms indep params =
      some (GMSOError.invalidAssignment (indep.filter (fun v => v ∉ syms))) := by
  unfold verify_validity
  rw [if_pos h]

theorem create_ok_iff (expr : String) (indep : Finset String) (params : ParameterMap)
    (p : PotentialExpression) :
    create expr indep params = .ok p ↔
      verify_validity (symbolsOf expr) indep params = none ∧
      p = ⟨expr, indep, params⟩ := by
  unfold create
  cases h : verify_validity (symbolsOf expr) indep params <;>
    simp [h, eq_comm]

theorem set_independent_variables_ok_iff (p : PotentialExpression) (input : IVInput)
    (q : PotentialExpression) :
    set_independent_variables p input = .ok q ↔
      verify_validity (symbolsOf p.expression) input.toFinset p.parameters = none ∧
      q = { p with independent_variables := input.toFinset } := by
  unfold set_independent_variables
  cases h : verify_validity (symbolsOf p.expression) input.toFinset p.parameters <;>
    simp [h, eq_comm]

theorem set_parameters_ok_iff (p : PotentialExpression) (m : ParameterMap)
    (q : PotentialExpression) :
    set_parameters p m = .ok q ↔
      verify_validity (symbolsOf p.expression) p.independent_variables m = none ∧
      q = { p with parameters := m } := by
  unfold set_parameters
  cases h : verify_validity (symbolsOf p.expression) p.independent_variables m <;>
    simp [h, eq_comm]

theorem set_parameters_has_error_iff (p : PotentialExpression) (m : ParameterMap) :
    (∃ e, set_parameters p m = .error e) ↔
      verify_validity (symbolsOf p.expression) p.independent_variables m ≠ none := by
  unfold set_parameters
  cases h : verify_validity (symbolsOf p.expression) p.independent_variables m <;>
    simp [h]

theorem invariant_of_verify (expr : String) (indep : Finset String)
    (params : ParameterMap)
    (h : verify_validity (symbolsOf expr) indep params = none) :
    invariant ⟨expr, indep, params⟩ := by
  obtain ⟨h1, h2, h3⟩ := (verify_validity_eq_none _ _ _).mp h
  exact ⟨Finset.union_subset h1 h2, h3⟩

theorem length_applyResult (st : Store) (a : Nat)
    (r : Except GMSOError PotentialExpression) :
    (applyResult st a r).length = st.length := by
  unfold applyResult
  cases r with
  | ok p' => exact List.length_set st a p'
  | error e => rfl

theorem applyResult_getElem_of_ne (st : Store) (a : Nat)
    (r : Except GMSOError PotentialExpression) (i : Nat) (hne : a ≠ i) :
    (applyResult st a r)[i]? = st[i]? := by
  unfold applyResult
  cases r with
  | ok p' => exact List.getElem?_set_ne hne
  | error e => rfl

theorem length_mutateAt (st : Store) (a : Nat)
    (f : PotentialExpression → Except GMSOError PotentialExpression) :
    (mutateAt st a f).length = st.length := by
  unfold mutateAt
  cases h : st[a]? with
  | none => rfl
  | some p => exact length_applyResult st a (f p)

theorem mutateAt_getElem_of_ne (st : Store) (a : Nat)
    (f : PotentialExpression → Except GMSOError PotentialExpression)
    (i : Nat) (hne : a ≠ i) : (mutateAt st a f)[i]? = st[i]? := by
  unfold mutateAt
  cases h : st[a]? with
  | none => rfl
  | some p => exact applyResult_getElem_of_ne st a (f p) i hne

theorem length_extendResult (st : Store)
    (r : Except GMSOError PotentialExpression) :
    st.length ≤ (extendResult st r).length := by
  unfold extendResult
  cases r with
  | ok p' => simp
  | error e => exact le_refl _

theorem extendResult_getElem (st : Store)
    (r : Except GMSOError PotentialExpression) (i : Nat) (hi : i < st.length) :
    (extendResult st r)[i]? = st[i]? := by
  unfold extendResult
  cases r with
  | ok p' => exact List.getElem?_append_left hi
  | error e => rfl

theorem length_runOp_mono (st : Store) (op : Op) :
    st.length ≤ (runOp st op).length := by
  cases op with
  | setIV a input => exact le_of_eq (length_mutateAt st a _).symm
  | setParams a m => exact le_of_eq (length_mutateAt st a _).symm
  | fromTemplate a params =>
    simp only [runOp]
    cases h : st[a]? with
    | none => exact le_refl _
    | some t => exact length_extendResult st _

theorem runOp_getElem_of_ne (st : Store) (op : Op) (i : Nat) (hi : i < st.length)
    (hne : Op.addr op ≠ i) : (runOp st op)[i]? = st[i]? := by
  cases op with
  | setIV a input => exact mutateAt_getElem_of_ne st a _ i hne
  | setParams a m => exact mutateAt_getElem_of_ne st a _ i hne
  | fromTemplate a params =>
    simp only [runOp]
    cases h : st[a]? with
    | none => rfl
    | some t => exact extendResult_getElem st _ i hi

theorem runOp_fromTemplate_getElem (st : Store) (a : Nat) (params : ParameterMap)
    (i : Nat) (hi : i < st.length) :
    (runOp st (Op.fromTemplate a params))[i]? = st[i]? := by
  simp only [runOp]
  cases h : st[a]? with
  | none => rfl
  | some t => exact extendResult_getElem st _ i hi

theorem runOps_getElem_of_ne (ops : List Op) :
    ∀ (st : Store) (i : Nat), i < st.length → (∀ op ∈ ops, Op.addr op ≠ i) →
      (runOps st ops)[i]? = st[i]? := by
  induction ops with
  | nil => intro st i _ _; rfl
  | cons op rest ih =>
    intro st i hi hops
    unfold runOps
    calc (runOps (runOp st op) rest)[i]?
        = (runOp st op)[i]? :=
          ih (runOp st op) i (Nat.lt_of_lt_of_le hi (length_runOp_mono st op))
            (fun o ho => hops o (List.mem_cons_of_mem _ ho))
      _ = st[i]? := runOp_getElem_of_ne st op i hi (hops op (List.mem_cons_self _ _))

/-- C1: for every `PotentialExpression` entity, the invariant — the
expression's symbols cover the union of the independent-variable set and the
parameter keys, and the two sets are disjoint — holds immediately after
`create`, after every successful `set_independent_variables` or
`set_parameters` call, and after every successful `instantiate_from_template`
call. -/
theorem invariant_after_operations :
    (∀ (expr : String) (indep : Finset String) (params : ParameterMap)
        (p : PotentialExpression),
      create expr indep params = .ok p → invariant p) ∧
    (∀ (p : PotentialExpression) (input : IVInput) (q : PotentialExpression),
      set_independent_variables p input = .ok q → invariant q) ∧
    (∀ (p : PotentialExpression) (m : ParameterMap) (q : PotentialExpression),
      set_parameters p m = .ok q → invariant q) ∧
    (∀ (t : PotentialExpression) (params : ParameterMap)
        (q : PotentialExpression),
      instantiate_from_template t params = .ok q → invariant q) := by
  have hc : ∀ (expr : String) (indep : Finset String) (params : ParameterMap)
      (p : PotentialExpression), create expr indep params = .ok p → invariant p := by
    intro expr indep params p hp
    obtain ⟨hv, rfl⟩ := (create_ok_iff expr indep params p).mp hp
    exact invariant_of_verify expr indep params hv
  refine ⟨hc, ?_, ?_, ?_⟩
  · intro p input q hq
    obtain ⟨hv, rfl⟩ := (set_independent_variables_ok_iff p input q).mp hq
    exact invariant_of_verify p.expression input.toFinset p.parameters hv
  · intro p m q hq
    obtain ⟨hv, rfl⟩ := (set_parameters_ok_iff p m q).mp hq
    exact invariant_of_verify p.expression p.independent_variables m hv
  · intro t params q hq
    exact hc t.expression t.independent_variables params q hq

/-- Witness for C1: the notebook's entity built by `create` from a*x+b
satisfies the invariant. -/
theorem invariant_after_operations_witness : invariant peAXB :=
  invariant_after_operations.1 "a*x+b" {"x"} pmAB peAXB (by decide)

/-- C2: proposing an independent-variable set (or single name) containing a
name that is not a free symbol of the entity's expression makes
`set_independent_variables` fail with an invalid-assignment error carrying
the offending name(s), and the entity's whole state is left unchanged. -/
theorem set_independent_variables_rejects_unknown_symbol (st : Store) (a : Nat)
    (p : PotentialExpression) (input : IVInput)
    (hst : st[a]? = some p)
    (hbad : ∃ v ∈ input.toFinset, v ∉ symbolsOf p.expression) :
    (∃ off, set_independent_variables p input =
        .error (GMSOError.invalidAssignment off) ∧
      ∀ v ∈ input.toFinset, v ∉ symbolsOf p.expression → v ∈ off) ∧
    runOp st (Op.setIV a input) = st := by
  have hne : ((input.toFinset).filter
      (fun v => v ∉ symbolsOf p.expression)).Nonempty :=
    Finset.filter_nonempty_iff.mpr hbad
  have herr : set_independent_variables p input =
      .error (GMSOError.invalidAssignment ((input.toFinset).filter
        (fun v => v ∉ symbolsOf p.expression))) := by
    unfold set_independent_variables
    rw [verify_validity_invalid_of_badVar _ _ _ hne]
  constructor
  · exact ⟨_, herr, fun v hv hvs => Finset.mem_filter.mpr ⟨hv, hvs⟩⟩
  · show mutateAt st a (fun r => set_independent_variables r input) = st
    unfold mutateAt
    rw [hst]
    show applyResult st a (set_independent_variables p input) = st
    rw [herr]
    rfl

/-- Witness for C2: the notebook scenario — reassigning the independent
variables of the a*x+b entity to the unknown name y fails and the store is
unchanged. -/
theorem set_independent_variables_rejects_unknown_symbol_witness :
    (∃ off, set_independent_variables peAXB (IVInput.one "y") =
        .error (GMSOError.invalidAssignment off) ∧
      ∀ v ∈ (IVInput.one "y").toFinset, v ∉ symbolsOf peAXB.expression →
        v ∈ off) ∧
    runOp [peAXB] (Op.setIV 0 (IVInput.one "y")) = [peAXB] :=
  set_independent_variables_rejects_unknown_symbol [peAXB] 0 peAXB
    (IVInput.one "y") rfl (by decide)

/-- C3: on a valid entity, `set_parameters` fails exactly when some proposed
key is not a free symbol of the expression or collides with an independent
variable, and a failing call leaves the stored entity untouched in every
field. -/
theorem set_parameters_atomic_rejection (st : Store) (a : Nat)
    (p : PotentialExpression) (m : ParameterMap)
    (hst : st[a]? = some p) (hp : invariant p) :
    ((∃ e, set_parameters p m = .error e) ↔
      ∃ k ∈ paramKeys m,
        k ∉ symbolsOf p.expression ∨ k ∈ p.independent_variables) ∧
    (∀ e, set_parameters p m = .error e →
      runOp st (Op.setParams a m) = st) := by
  constructor
  · rw [set_parameters_has_error_iff]
    constructor
    · intro hne
      by_contra hcontra
      push_neg at hcontra
      apply hne
      rw [verify_validity_eq_none]
      refine ⟨fun v hv => hp.1 (Finset.mem_union_left _ hv), ?_, ?_⟩
      · exact fun k hk => (hcontra k hk).1
      · rw [Finset.eq_empty_iff_forall_not_mem]
        intro k hk
        rw [Finset.mem_inter] at hk
        exact (hcontra k hk.2).2 hk.1
    · rintro ⟨k, hk, hbadk⟩ hnone
      rw [verify_validity_eq_none] at hnone
      obtain ⟨-, hkeys, hint⟩ := hnone
      cases hbadk with
      | inl hns => exact hns (hkeys hk)
      | inr hin =>
        rw [Finset.eq_empty_iff_forall_not_mem] at hint
        exact hint k (Finset.mem_inter.mpr ⟨hin, hk⟩)
  · intro e he
    show mutateAt st a (fun r => set_parameters r m) = st
    unfold mutateAt
    rw [hst]
    show applyResult st a (set_parameters p m) = st
    rw [he]
    rfl

/-- Witness for C3 at the notebook entity and the unknown key d. -/
theorem set_parameters_atomic_rejection_witness :
    ((∃ e, set_parameters peAXB [("d", oneGram)] = .error e) ↔
      ∃ k ∈ paramKeys [("d", oneGram)],
        k ∉ symbolsOf peAXB.expression ∨ k ∈ peAXB.independent_variables) ∧
    (∀ e, set_parameters peAXB [("d", oneGram)] = .error e →
      runOp [peAXB] (Op.setParams 0 [("d", oneGram)]) = [peAXB]) :=
  set_parameters_atomic_rejection [peAXB] 0 peAXB [("d", oneGram)] rfl
    (by decide)

/-- C4: on a valid entity, reassigning the independent-variable set to its
current value always succeeds and returns the entity unchanged in every
field. -/
theorem set_independent_variables_idempotent (p : PotentialExpression)
    (hp : invariant p) :
    set_independent_variables p (IVInput.set p.independent_variables) =
      .ok p := by
  rw [set_independent_variables_ok_iff]
  constructor
  · rw [verify_validity_eq_none]
    exact ⟨fun v hv => hp.1 (Finset.mem_union_left _ hv),
      fun k hk => hp.1 (Finset.mem_union_right _ hk), hp.2⟩
  · rfl

/-- Witness for C4 at the notebook entity. -/
theorem set_independent_variables_idempotent_witness :
    set_independent_variables peAXB
      (IVInput.set peAXB.independent_variables) = .ok peAXB :=
  set_independent_variables_idempotent peAXB (by decide)

/-- C5: `is_parametric` is false exactly when the parameter map is empty and
true otherwise; in particular the spec scenario entity created from x*b+c
with independent variable c and no parameters is not parametric. -/
theorem is_parametric_iff_parameters_nonempty :
    (∀ p : PotentialExpression, is_parametric p = true ↔ p.parameters ≠ []) ∧
    (∀ p : PotentialExpression,
      create "x*b+c" {"c"} [] = .ok p → is_parametric p = false) := by
  constructor
  · intro p
    unfold is_parametric
    cases p.parameters <;> simp
  · intro p hp
    rw [(by decide : create "x*b+c" {"c"} [] = Except.ok peXBC)] at hp
    injection hp with h
    rw [← h]
    rfl

/-- Witness for C5: the spec scenario entity is not parametric. -/
theorem is_parametric_iff_parameters_nonempty_witness :
    is_parametric peXBC = false :=
  is_parametric_iff_parameters_nonempty.2 peXBC (by decide)

/-- C6: after `instantiate_from_template` the template's own cell — its
expression, independent-variable set and parameter map — is unchanged; any
sequence of subsequent operations that target other addresses (in particular
the derived instance, allocated at the fresh address) never changes the
template; and on success the derived instance is a new, independent copy
appended at a fresh address. -/
theorem instantiate_from_template_preserves_template (st : Store) (t : Nat)
    (params : ParameterMap) (ops : List Op) (ht : t < st.length)
    (hops : ∀ op ∈ ops, Op.addr op ≠ t) :
    (runOp st (Op.fromTemplate t params))[t]? = st[t]? ∧
    (runOps (runOp st (Op.fromTemplate t params)) ops)[t]? = st[t]? ∧
    (∀ tp, st[t]? = some tp → ∀ q,
      instantiate_from_template tp params = .ok q →
        runOp st (Op.fromTemplate t params) = st ++ [q]) := by
  have h1 := runOp_fromTemplate_getElem st t params t ht
  refine ⟨h1, ?_, ?_⟩
  · rw [runOps_getElem_of_ne ops _ t
      (Nat.lt_of_lt_of_le ht (length_runOp_mono st _)) hops, h1]
  · intro tp htp q hq
    simp only [runOp]
    rw [htp]
    show extendResult st (instantiate_from_template tp params) = st ++ [q]
    rw [hq]
    rfl

/-- Witness for C6: instantiating the Lennard-Jones template at address 0
and then mutating the derived instance at address 1 leaves the template
cell unchanged. -/
theorem instantiate_from_template_preserves_template_witness :
    (runOp [ljTemplate] (Op.fromTemplate 0 ljParams))[0]? = [ljTemplate][0]? ∧
    (runOps (runOp [ljTemplate] (Op.fromTemplate 0 ljParams))
      [Op.setParams 1 [("sigma", oneGram)]])[0]? = [ljTemplate][0]? ∧
    (∀ tp, [ljTemplate][0]? = some tp → ∀ q,
      instantiate_from_template tp ljParams = .ok q →
        runOp [ljTemplate] (Op.fromTemplate 0 ljParams) = [ljTemplate] ++ [q]) :=
  instantiate_from_template_preserves_template [ljTemplate] 0 ljParams
    [Op.setParams 1 [("sigma", oneGram)]] (by decide) (by decide)

/-- C7: the Lennard-Jones spec scenario — instantiating the template
4*epsilon*((sigma/r)**12-(sigma/r)**6) with independent variable r using
sigma = 1.0 nm and epsilon = 1.0 kJ/mol succeeds, yields a parametric
entity, and its parameter map holds exactly those two dimensioned entries. -/
theorem lennard_jones_template_scenario :
    instantiate_from_template ljTemplate ljParams = .ok ljDerived ∧
    is_parametric ljDerived = true ∧
    ljDerived.parameters = [("sigma", ⟨1, "nm"⟩), ("epsilon", ⟨1, "kJ/mol"⟩)] ∧
    ljTemplate.independent_variables = {"r"} ∧ ljTemplate.parameters = [] :=
  ⟨by decide, rfl, rfl, rfl, rfl⟩

/-- C8: a successful `set_parameters` call replaces the parameter map
wholesale with exactly the supplied map — entries keep their (possibly
heterogeneous) units verbatim — and leaves expression and independent
variables unchanged. -/
theorem set_parameters_wholesale_replacement (p : PotentialExpression)
    (m : ParameterMap) (q : PotentialExpression)
    (h : set_parameters p m = .ok q) :
    q.parameters = m ∧ q.expression = p.expression ∧
    q.independent_variables = p.independent_variables := by
  obtain ⟨-, rfl⟩ := (set_parameters_ok_iff p m q).mp h
  exact ⟨rfl, rfl, rfl⟩

/-- Witness for C8: binding the heterogeneous map a = 1.0 g, b = 1.0 m on
the unparametrized a*x+b entity stores exactly that map. -/
theorem set_parameters_wholesale_replacement_witness :
    peAXB.parameters = pmAB ∧ peAXB.expression = peAXB0.expression ∧
    peAXB.independent_variables = peAXB0.independent_variables :=
  set_parameters_wholesale_replacement peAXB0 pmAB peAXB (by decide)

/-- C9 counterexample: the claim that a non-empty parameter map can never
become empty again fails — `set_parameters` with an empty map is accepted
(its key set is vacuously valid) and returns the notebook's parametrized
a*x+b entity to the template state. -/
theorem parametrized_to_template_counterexample :
    is_parametric peAXB = true ∧
    runOp [peAXB] (Op.setParams 0 []) = [peAXB0] ∧
    is_parametric peAXB0 = false :=
  ⟨rfl, by decide, rfl⟩

/-- C9 amended: once the entity's parameter map is non-empty it stays
non-empty under every exposed operation except `set_parameters` with an
empty map — `set_independent_variables`, `instantiate_from_template` and
`set_parameters` with a non-empty map never empty it. -/
theorem parametrized_state_preserved (st : Store) (a : Nat)
    (p : PotentialExpression) (op : Op) (hst : st[a]? = some p)
    (hp : p.parameters ≠ [])
    (hop : ∀ m, op = Op.setParams a m → m ≠ []) :
    ∃ q, (runOp st op)[a]? = some q ∧ q.parameters ≠ [] := by
  have ha : a < st.length := (List.getElem?_eq_some_iff.mp hst).1
  cases op with
  | setIV b input =>
    by_cases hab : b = a
    · subst hab
      simp only [runOp]
      unfold mutateAt
      rw [hst]
      cases hr : set_independent_variables p input with
      | ok p' =>
        refine ⟨p', ?_, ?_⟩
        · show (applyResult st b (set_independent_variables p input))[b]? = some p'
          rw [hr]
          exact List.getElem?_set_self ha
        · obtain ⟨-, rfl⟩ := (set_independent_variables_ok_iff p input p').mp hr
          exact hp
      | error e =>
        refine ⟨p, ?_, hp⟩
        show (applyResult st b (set_independent_variables p input))[b]? = some p
        rw [hr]
        exact hst
    · refine ⟨p, ?_, hp⟩
      show (mutateAt st b (fun r => set_independent_variables r input))[a]? = some p
      rw [mutateAt_getElem_of_ne st b _ a hab]
      exact hst
  | setParams b m =>
    by_cases hab : b = a
    · subst hab
      simp only [runOp]
      unfold mutateAt
      rw [hst]
      cases hr : set_parameters p m with
      | ok p' =>
        refine ⟨p', ?_, ?_⟩
        · show (applyResult st b (set_parameters p m))[b]? = some p'
          rw [hr]
          exact List.getElem?_set_self ha
        · obtain ⟨-, rfl⟩ := (set_parameters_ok_iff p m p').mp hr
          exact hop m rfl
      | error e =>
        refine ⟨p, ?_, hp⟩
        show (applyResult st b (set_parameters p m))[b]? = some p
        rw [hr]
        exact hst
    · refine ⟨p, ?_, hp⟩
      show (mutateAt st b (fun r => set_parameters r m))[a]? = some p
      rw [mutateAt_getElem_of_ne st b _ a hab]
      exact hst
  | fromTemplate b params =>
    refine ⟨p, ?_, hp⟩
    rw [runOp_fromTemplate_getElem st b params a ha]
    exact hst

/-- Witness for C9 amended: reasserting the independent variable x on the
parametrized a*x+b entity keeps its parameter map non-empty. -/
theorem parametrized_state_preserved_witness :
    ∃ q, (runOp [peAXB] (Op.setIV 0 (IVInput.set {"x"})))[0]? = some q ∧
      q.parameters ≠ [] :=
  parametrized_state_preserved [peAXB] 0 peAXB
    (Op.setIV 0 (IVInput.set {"x"})) rfl (by decide)
    (fun m h => Op.noConfusion h)

/-- C10: the invalid-assignment failure raised when the proposed independent
variables contain an unknown symbol is catchable as a ValueError at the
public interface, as the notebooks' except-ValueError handlers observe. -/
theorem invalid_assignment_catchable_as_value_error (p : PotentialExpression)
    (input : IVInput)
    (hbad : ∃ v ∈ input.toFinset, v ∉ symbolsOf p.expression) :
    ∃ e, set_independent_variables p input = .error e ∧
      catchableAsValueError e = true := by
  have hne : ((input.toFinset).filter
      (fun v => v ∉ symbolsOf p.expression)).Nonempty :=
    Finset.filter_nonempty_iff.mpr hbad
  refine ⟨GMSOError.invalidAssignment ((input.toFinset).filter
    (fun v => v ∉ symbolsOf p.expression)), ?_, rfl⟩
  unfold set_independent_variables
  rw [verify_validity_invalid_of_badVar _ _ _ hne]

/-- Witness for C10 at the notebook scenario: assigning y on the a*x+b
entity raises an error observable as a ValueError. -/
theorem invalid_assignment_catchable_as_value_error_witness :
    ∃ e, set_independent_variables peAXB (IVInput.one "y") = .error e ∧
      catchableAsValueError e = true :=
  invalid_assignment_catchable_as_value_error peAXB (IVInput.one "y")
    (by decide)

end GmsoShowcase
